import Mathlib

/-!
Verification of the offline-first multi-context synchronization engine of
the smart-budget-tracker application, a shallow embedding of the state
manager in `src/context/AppContext.tsx`.

Modelling conventions:
- Dates and timestamps are epoch milliseconds (`Nat`); the source calls
  `new Date(x).getTime()` on ISO strings, which we model by carrying the
  millisecond value directly.
- JavaScript objects with string keys (the settings record) are modelled as
  association lists `List (String × String)` with unique keys; object spread
  `\x7b...a, ...b\x7d` is `jsSpread a b`.
- The JavaScript `x || d` default on a number is `jsOrNum` / `jsOrNumOpt`
  (`0` is falsy); on an array field that is always written by this code the
  guard only protects a missing field, so a present (possibly empty) array is
  used as-is, matching JS truthiness of `[]`.
- Asynchronous network calls are parameters of the embedded functions: the
  caller supplies the value the `await` would have produced, and state
  mutation between suspension points is applied atomically, matching the
  single-threaded cooperative scheduling of the source.
- `React.useRef` cells (`isBackingUpRef`, `sessionVersion`, `isLoggingOutRef`)
  are ordinary fields of the process state.
-/

namespace BudgetTracker

/-- Transaction type tag: `type ∈ \x7bincome, expense, transfer\x7d`. -/
inductive TxType
  | income
  | expense
  | transfer
deriving DecidableEq, Repr

/-- A transaction as held in the live state (`types.ts` shape used by
`AppContext.tsx`): opaque id, type, amount, date (epoch ms), note, optional
account / transfer / category references, and the `isPendingSync` flag. -/
structure Tx where
  id : String
  type : TxType
  amount : Nat
  date : Nat
  note : String
  accountId : Option String
  fromAccountId : Option String
  toAccountId : Option String
  categoryId : Option String
  isPendingSync : Bool
deriving DecidableEq, Repr

structure Account where
  id : String
  name : String
deriving DecidableEq, Repr

structure Category where
  id : String
  name : String
deriving DecidableEq, Repr

structure CategoryBudget where
  categoryId : String
  amount : Nat
deriving DecidableEq, Repr

structure Wallet where
  id : String
  name : String
deriving DecidableEq, Repr

/-- The settings record, modelled as a JS object: string keys to string
values, unique keys. -/
abbrev Settings := List (String × String)

/-- Modelled from the spec: `constants.ts` (INITIAL_ACCOUNTS) is not under
`src/`; the personal default account set, a nonempty concrete stand-in. -/
def INITIAL_ACCOUNTS : List Account :=
  [⟨"acc_cash", "Cash"⟩, ⟨"acc_bank", "Bank"⟩]

/-- Modelled from the spec: `constants.ts` (INITIAL_CATEGORIES) is not under
`src/`; the personal default category set, a nonempty concrete stand-in. -/
def INITIAL_CATEGORIES : List Category :=
  [⟨"cat_food", "Food"⟩, ⟨"cat_transport", "Transport"⟩]

/-- Modelled from the spec: `constants.ts` (DEFAULT_SETTINGS) is not under
`src/`; a concrete stand-in settings object with unique keys. -/
def DEFAULT_SETTINGS : Settings :=
  [("language", "en"), ("currency", "$"), ("autoBackup", "daily")]

/-- JS object spread `\x7b...a, ...b\x7d` on objects with unique keys: keys of `a`
keep their position, values overridden by `b` where `b` has the key; keys only
in `b` are appended in order. -/
def jsSpread (a b : List (String × String)) : List (String × String) :=
  (a.map (fun p =>
    match b.find? (fun q => q.1 == p.1) with
    | some q => (p.1, q.2)
    | none => p))
  ++ b.filter (fun q => !(a.any (fun p => p.1 == q.1)))

/-- JS `n || d` on a number: `0` is falsy. -/
def jsOrNum (n d : Nat) : Nat := if n = 0 then d else n

/-- JS `x || d` on an optional number (`undefined`/absent or `0` falls back). -/
def jsOrNumOpt (o : Option Nat) (d : Nat) : Nat :=
  match o with
  | none => d
  | some n => jsOrNum n d

/-- The per-context dataset written by `saveCurrentContextToStorage`
(all fields always present). -/
structure ContextData where
  transactions : List Tx
  accounts : List Account
  categories : List Category
  budget : Nat
  category_budgets : List CategoryBudget
  settings : Settings
deriving DecidableEq, Repr

/-- A remote payload (wallet data or backup data): an untyped JSON object any
of whose fields may be absent, matching the `remoteData.x || d` guards. -/
structure RemoteData where
  transactions : Option (List Tx)
  accounts : Option (List Account)
  categories : Option (List Category)
  budget : Option Nat
  category_budgets : Option (List CategoryBudget)
  settings : Option Settings
deriving DecidableEq, Repr

/-- The `SyncState` record of `AppContext.tsx` (the fields the sync engine
reads or writes; `user` is the user id when logged in). -/
structure SyncState where
  isLoggedIn : Bool
  user : Option String
  lastSync : Option Nat
  unsyncedChanges : Bool
  pendingRestoreAvailable : Bool
  isOnline : Bool
  isSyncing : Bool
  isRealtimeConnected : Bool
  activeWalletId : Option String
deriving DecidableEq, Repr

/-- The Local Store: per-context snapshot keys (`sb_wallet_<id>_data` /
`sb_personal_data`), keyed here by `Option String`, plus the legacy
per-entity keys read by the personal fallback path, held jointly as one
`ContextData`. -/
structure Store where
  contexts : List (Option String × ContextData)
  legacy : ContextData
deriving DecidableEq, Repr

/-- The whole process state of the provider: live snapshot fields, wallet
list, sync state, local store, and the ref cells. -/
structure App where
  transactions : List Tx
  accounts : List Account
  categories : List Category
  budget : Nat
  categoryBudgets : List CategoryBudget
  settings : Settings
  wallets : List Wallet
  syncState : SyncState
  store : Store
  isBackingUp : Bool
  isLoggingOut : Bool
  sessionVersion : Nat
deriving DecidableEq, Repr

/-- Source `markAsDirty`: sets `unsyncedChanges` to true only when not already true. -/
def markAsDirty (ss : SyncState) : SyncState :=
  if ss.unsyncedChanges = false then { ss with unsyncedChanges := true } else ss

/-- Apply `markAsDirty` to the process state. -/
def withDirty (s : App) : App := { s with syncState := markAsDirty s.syncState }

/-- Source `addTransaction`: prepends the new transaction with a fresh id and
`isPendingSync := true`, then marks dirty. -/
def addTransaction (data : Tx) (newId : String) (s : App) : App :=
  withDirty { s with
    transactions := ({ data with id := newId, isPendingSync := true }) :: s.transactions }

/-- The import-deduplication signature
`date.split('T')[0]-amount-type-note.trim()`; the day part of an epoch-ms
date is its day index (0 is the falsy empty date). -/
def txSig (t : Tx) : String :=
  (if t.date = 0 then "" else toString (t.date / 86400000)) ++ "-" ++
    toString t.amount ++ "-" ++
    (match t.type with
     | TxType.income => "income"
     | TxType.expense => "expense"
     | TxType.transfer => "transfer") ++ "-" ++ t.note.trim

/-- Source `importTransactions`: drops incoming transactions whose signature already
occurs among the existing ones, gives the kept ones an id (fresh when empty)
and `isPendingSync := true`, appends them, then marks dirty. -/
def importTransactions (newTxs : List Tx) (fresh : Nat → String) (s : App) : App :=
  let existingSigs := s.transactions.map txSig
  let uniqueNew := newTxs.filter (fun t => !(existingSigs.contains (txSig t)))
  let safeUniqueNew := uniqueNew.enum.map (fun p =>
    { p.2 with id := if p.2.id = "" then fresh p.1 else p.2.id, isPendingSync := true })
  withDirty { s with transactions := s.transactions ++ safeUniqueNew }

/-- Source `updateTransaction`: replaces the matching-id transaction with the given
data and `isPendingSync := true`, then marks dirty. -/
def updateTransaction (data : Tx) (s : App) : App :=
  withDirty { s with
    transactions := s.transactions.map (fun item =>
      if item.id = data.id then { data with isPendingSync := true } else item) }

/-- Source `deleteTransaction`: removes the transaction with the given id, marks dirty. -/
def deleteTransaction (txId : String) (s : App) : App :=
  withDirty { s with transactions := s.transactions.filter (fun tx => tx.id ≠ txId) }

/-- Source `addAccount`: appends the account with a generated id, marks dirty. -/
def addAccount (a : Account) (newId : String) (s : App) : App :=
  withDirty { s with accounts := s.accounts ++ [{ a with id := newId }] }

/-- Source `updateAccountName`: renames the matching account, marks dirty. -/
def updateAccountName (id name : String) (s : App) : App :=
  withDirty { s with
    accounts := s.accounts.map (fun a => if a.id = id then { a with name := name } else a) }

/-- Source `deleteAccount`: removes the account, reassigns every transaction
reference to it to the first remaining account (or clears it when none
remain), marks the changed transactions `isPendingSync := true`, then marks
dirty — the cascading mutation of the spec. -/
def deleteAccount (id : String) (s : App) : App :=
  let remaining := s.accounts.filter (fun a => a.id ≠ id)
  let fallbackId := remaining.head?.map (fun a => a.id)
  withDirty { s with
    accounts := remaining,
    transactions := s.transactions.map (fun t =>
      let changed := t.accountId = some id ∨ t.fromAccountId = some id ∨ t.toAccountId = some id
      let t1 := { t with
        accountId := if t.accountId = some id then fallbackId else t.accountId,
        fromAccountId := if t.fromAccountId = some id then fallbackId else t.fromAccountId,
        toAccountId := if t.toAccountId = some id then fallbackId else t.toAccountId }
      if changed then { t1 with isPendingSync := true } else t1) }

/-- Source `addCategory`: appends the category with a generated id, marks dirty. -/
def addCategory (c : Category) (newId : String) (s : App) : App :=
  withDirty { s with categories := s.categories ++ [{ c with id := newId }] }

/-- Source `updateCategory`: replaces the matching category, marks dirty. -/
def updateCategory (c : Category) (s : App) : App :=
  withDirty { s with
    categories := s.categories.map (fun cat => if cat.id = c.id then c else cat) }

/-- Source `deleteCategory`: removes the category and its budget entry, clears the
category reference on affected transactions marking them pending, then marks
dirty. -/
def deleteCategory (id : String) (s : App) : App :=
  withDirty { s with
    categories := s.categories.filter (fun c => c.id ≠ id),
    categoryBudgets := s.categoryBudgets.filter (fun b => b.categoryId ≠ id),
    transactions := s.transactions.map (fun t =>
      if t.categoryId = some id then { t with categoryId := none, isPendingSync := true } else t) }

/-- Source `updateBudget`: sets the overall budget, marks dirty. -/
def updateBudget (n : Nat) (s : App) : App :=
  withDirty { s with budget := n }

/-- Source `updateCategoryBudget`: replaces the entry for the category (filter out
then append), marks dirty. -/
def updateCategoryBudget (cid : String) (n : Nat) (s : App) : App :=
  withDirty { s with
    categoryBudgets := s.categoryBudgets.filter (fun b => b.categoryId ≠ cid) ++ [⟨cid, n⟩] }

/-- Source `updateSettings`: shallow-merges the patch into the settings, marks dirty. -/
def updateSettings (patch : Settings) (s : App) : App :=
  withDirty { s with settings := jsSpread s.settings patch }

/-- The thirteen mutating operations exposed by the state manager, with their
inputs (fresh ids and network-free payloads). -/
inductive MutOp
  | addTx (data : Tx) (newId : String)
  | importTxs (txs : List Tx) (fresh : Nat → String)
  | updateTx (data : Tx)
  | deleteTx (id : String)
  | addAcct (a : Account) (newId : String)
  | updateAcctName (id name : String)
  | deleteAcct (id : String)
  | addCat (c : Category) (newId : String)
  | updateCat (c : Category)
  | deleteCat (id : String)
  | setBudget (n : Nat)
  | setCatBudget (cid : String) (n : Nat)
  | patchSettings (patch : Settings)

/-- Apply a mutating operation to the process state. -/
def applyMutOp : MutOp → App → App
  | MutOp.addTx data newId, s => addTransaction data newId s
  | MutOp.importTxs txs fresh, s => importTransactions txs fresh s
  | MutOp.updateTx data, s => updateTransaction data s
  | MutOp.deleteTx id, s => deleteTransaction id s
  | MutOp.addAcct a newId, s => addAccount a newId s
  | MutOp.updateAcctName id name, s => updateAccountName id name s
  | MutOp.deleteAcct id, s => deleteAccount id s
  | MutOp.addCat c newId, s => addCategory c newId s
  | MutOp.updateCat c, s => updateCategory c s
  | MutOp.deleteCat id, s => deleteCategory id s
  | MutOp.setBudget n, s => updateBudget n s
  | MutOp.setCatBudget cid n, s => updateCategoryBudget cid n s
  | MutOp.patchSettings patch, s => updateSettings patch s

/-- Assoc-map write for the per-context snapshot keys (JS key-value store:
overwrite in place, append when absent). -/
def storeSet (m : List (Option String × ContextData)) (k : Option String)
    (v : ContextData) : List (Option String × ContextData) :=
  if m.any (fun p => p.1 == k) then m.map (fun p => if p.1 == k then (k, v) else p)
  else m ++ [(k, v)]

/-- Assoc-map read for the per-context snapshot keys. -/
def storeGet (m : List (Option String × ContextData)) (k : Option String) :
    Option ContextData :=
  (m.find? (fun p => p.1 == k)).map (fun p => p.2)

/-- The live snapshot, as serialized by `saveCurrentContextToStorage`. -/
def snapshotOf (s : App) : ContextData :=
  ⟨s.transactions, s.accounts, s.categories, s.budget, s.categoryBudgets, s.settings⟩

/-- Source `saveCurrentContextToStorage(walletId)`: writes the live snapshot under
the outgoing context's key. -/
def saveCurrentContextToStorage (walletId : Option String) (s : App) : App :=
  { s with store := { s.store with contexts := storeSet s.store.contexts walletId (snapshotOf s) } }

/-- Source `loadContextFromStorage(walletId)`: loads the stored snapshot; when
absent and the target is a wallet, initializes empty transactions and
budgets but the INITIAL account/category sets and default settings; when
absent and the target is personal, falls back to the legacy per-entity keys. -/
def loadContextFromStorage (walletId : Option String) (s : App) : App :=
  match storeGet s.store.contexts walletId with
  | some data =>
    { s with
      transactions := data.transactions,
      accounts := data.accounts,
      categories := data.categories,
      budget := jsOrNum data.budget 0,
      categoryBudgets := data.category_budgets,
      settings := jsSpread s.settings data.settings }
  | none =>
    if walletId.isSome then
      { s with
        transactions := [],
        accounts := INITIAL_ACCOUNTS,
        categories := INITIAL_CATEGORIES,
        budget := 0,
        categoryBudgets := [],
        settings := DEFAULT_SETTINGS }
    else
      { s with
        transactions := s.store.legacy.transactions,
        accounts := s.store.legacy.accounts,
        categories := s.store.legacy.categories,
        budget := jsOrNum s.store.legacy.budget 0,
        categoryBudgets := s.store.legacy.category_budgets,
        settings := jsSpread DEFAULT_SETTINGS s.store.legacy.settings }

/-- Overwrite the live snapshot with freshly fetched remote wallet data
(step 4 of `switchWallet`). -/
def applyRemoteWalletData (r : RemoteData) (s : App) : App :=
  { s with
    transactions := r.transactions.getD [],
    accounts := r.accounts.getD INITIAL_ACCOUNTS,
    categories := r.categories.getD INITIAL_CATEGORIES,
    budget := jsOrNumOpt r.budget 0,
    categoryBudgets := r.category_budgets.getD [],
    settings := match r.settings with
      | some m => jsSpread s.settings m
      | none => s.settings }

/-- Source `switchWallet(walletId)`: save the outgoing snapshot, set the active
context id and clear `unsyncedChanges`, load the incoming snapshot, and —
when online and the target is a wallet — apply the remote copy if the fetch
produced one (`remote = none` covers both a failed fetch and no data). -/
def switchWallet (walletId : Option String) (remote : Option RemoteData) (s : App) : App :=
  let s1 := saveCurrentContextToStorage s.syncState.activeWalletId s
  let s2 := { s1 with syncState :=
    { s1.syncState with activeWalletId := walletId, unsyncedChanges := false } }
  let s3 := loadContextFromStorage walletId s2
  if walletId.isSome && s3.syncState.isOnline then
    match remote with
    | some r => applyRemoteWalletData r s3
    | none => s3
  else s3

/-- The outcome object of `backupUserData`. -/
structure BackupRes where
  skipped : Bool
  timestamp : Option Nat
deriving DecidableEq, Repr

/-- Source `backupUserData`: single-flight push. Returns the outcome (or the
propagated error), the post-state, and the number of network pushes
attempted. `net` is the result the awaited Gateway call would produce
(`ok` carries the server timestamp for the user-scoped push); `now` is the
current time used for the wallet-scoped path. -/
def backupUserData (net : Except Unit Nat) (now : Nat) (s : App) :
    Except Unit BackupRes × App × Nat :=
  if s.isBackingUp then (Except.ok ⟨true, none⟩, s, 0)
  else
    match s.syncState.user with
    | none =>
      (Except.ok ⟨true, none⟩,
        { s with isBackingUp := false,
                 syncState := { s.syncState with isSyncing := false } }, 0)
    | some _ =>
      match s.syncState.activeWalletId with
      | some _ =>
        match net with
        | Except.ok _ =>
          (Except.ok ⟨false, some now⟩,
            { s with isBackingUp := false,
                     syncState := { s.syncState with
                       isSyncing := false, unsyncedChanges := false, lastSync := some now } }, 1)
        | Except.error e =>
          (Except.error e,
            { s with isBackingUp := false,
                     syncState := { s.syncState with isSyncing := false } }, 1)
      | none =>
        match net with
        | Except.ok ts =>
          (Except.ok ⟨false, some ts⟩,
            { s with isBackingUp := false,
                     syncState := { s.syncState with
                       isSyncing := false, lastSync := some ts, unsyncedChanges := false } }, 1)
        | Except.error e =>
          (Except.error e,
            { s with isBackingUp := false,
                     syncState := { s.syncState with isSyncing := false } }, 1)

/-- JS `Map.set` keyed by transaction id: replace in place, append when new. -/
def txMapSet (m : List Tx) (t : Tx) : List Tx :=
  if m.any (fun u => u.id == t.id) then m.map (fun u => if u.id == t.id then t else u)
  else m ++ [t]

/-- Source `if (!txMap.has(t.id)) txMap.set(t.id, t)`: append only when the id is new. -/
def txMapSetIfAbsent (m : List Tx) (t : Tx) : List Tx :=
  if m.any (fun u => u.id == t.id) then m else m ++ [t]

/-- The comparator of `.sort((a, b) => dateOf b - dateOf a)`: descending by
date. -/
def dateGe (a b : Tx) : Prop := b.date ≤ a.date

instance : DecidableRel dateGe := fun a b => Nat.decLe b.date a.date

instance : IsTotal Tx dateGe := ⟨fun a b => Nat.le_total b.date a.date⟩

instance : IsTrans Tx dateGe := ⟨fun _ _ _ h1 h2 => Nat.le_trans h2 h1⟩

/-- Source `.sort((a, b) => dateOf b - dateOf a)`: a stable sort descending by date
(JS `Array.prototype.sort` is specified stable). -/
def sortByDateDesc (l : List Tx) : List Tx := List.insertionSort dateGe l

/-- The transaction union of the merge-restore strategy: cloud entries enter
the id-keyed map first, local entries only where the id is absent, then the
values are sorted descending by date. -/
def mergeTxs (cloudTxs prevTxs : List Tx) : List Tx :=
  sortByDateDesc (prevTxs.foldl txMapSetIfAbsent (cloudTxs.foldl txMapSet []))

/-- Restore strategies. -/
inductive RestoreStrat
  | merge
  | replace
  | skip
deriving DecidableEq, Repr

/-- Source `restoreBackup(strategy)`: `remote` is the fetched payload and its
timestamp (`none` covers no user data and a failed fetch, both of which
return `false`). Returns the boolean outcome and the post-state. -/
def restoreBackup (strat : RestoreStrat) (remote : Option (RemoteData × Option Nat))
    (s : App) : Bool × App :=
  match s.syncState.user with
  | none => (false, s)
  | some _ =>
    match strat with
    | RestoreStrat.skip =>
      (true, { s with syncState := { s.syncState with pendingRestoreAvailable := false } })
    | _ =>
      match remote with
      | none => (false, s)
      | some (r, remoteTimestamp) =>
        let cloudTxs := r.transactions.getD []
        let cloudAccounts := r.accounts.getD INITIAL_ACCOUNTS
        let cloudCats := r.categories.getD INITIAL_CATEGORIES
        let cloudBudget := jsOrNumOpt r.budget 0
        let cloudSettings := r.settings.getD DEFAULT_SETTINGS
        let cloudCatBudgets := r.category_budgets.getD []
        let s1 :=
          match strat with
          | RestoreStrat.replace =>
            { s with
              transactions := cloudTxs,
              accounts := cloudAccounts,
              categories := cloudCats,
              budget := cloudBudget,
              categoryBudgets := cloudCatBudgets,
              settings := cloudSettings }
          | _ =>
            { s with
              transactions := mergeTxs cloudTxs s.transactions,
              accounts := cloudAccounts,
              categories := cloudCats,
              settings := jsSpread s.settings cloudSettings,
              budget := cloudBudget,
              categoryBudgets := cloudCatBudgets }
        match remoteTimestamp with
        | some ts =>
          (true, { s1 with syncState :=
            { s1.syncState with pendingRestoreAvailable := false, lastSync := some ts } })
        | none =>
          (true, { s1 with syncState :=
            { s1.syncState with pendingRestoreAvailable := false } })

/-- The authenticated user profile handed to the auth callback. -/
structure Profile where
  id : String
deriving DecidableEq, Repr

/-- The login-reconciliation step of `handleAuthStateChange`: when a backup
envelope exists, compare its timestamp against the local last-sync pointer
with the 1-second grace window; when strictly newer (or no local pointer),
raise the restore prompt; either way adopt the remote timestamp. The live
snapshot is never touched here. -/
def reconcileOnLogin (backupRes : Option (RemoteData × Option Nat)) (s : App) : App :=
  match backupRes with
  | none => s
  | some (_, cloudTs) =>
    let localLastSync := s.syncState.lastSync
    let isNewer := localLastSync.isNone ||
      (match cloudTs, localLastSync with
       | some c, some l => decide (c > l + 1000)
       | _, _ => false)
    if isNewer then
      { s with syncState :=
        { s.syncState with lastSync := cloudTs, pendingRestoreAvailable := true } }
    else
      { s with syncState :=
        { s.syncState with lastSync := cloudTs, pendingRestoreAvailable := false } }

/-- The backup-reconciliation stage of `handleAuthStateChange`: skipped when
an active wallet context is recorded; otherwise guarded by the session
generation counter (a mismatch at the continuation discards the fetched
envelope). -/
def authReconcileStage (backupRes : Option (RemoteData × Option Nat))
    (verAtBackup ver : Nat) (s : App) : App :=
  if s.syncState.activeWalletId.isSome then s
  else if verAtBackup ≠ ver then s
  else reconcileOnLogin backupRes s

/-- Source `handleAuthStateChange(user)`: bumps the session generation, resets the
sync state on sign-out, or records the profile and runs the wallet-list and
backup-reconciliation continuations, each of which compares the generation
counter at completion time (`verAtWallets` / `verAtBackup`) with the spawn
value and aborts on mismatch. -/
def handleAuthStateChange (user : Option Profile)
    (walletsRes : Except Unit (List Wallet)) (verAtWallets : Nat)
    (backupRes : Option (RemoteData × Option Nat)) (verAtBackup : Nat)
    (s : App) : App :=
  if s.isLoggingOut then s
  else
    let ver := s.sessionVersion + 1
    let s0 := { s with sessionVersion := ver }
    match user with
    | none =>
      { s0 with
        wallets := [],
        syncState := { s0.syncState with
          isLoggedIn := false, user := none, isRealtimeConnected := false,
          unsyncedChanges := false, activeWalletId := none, lastSync := none } }
    | some p =>
      let s1 := { s0 with syncState :=
        { s0.syncState with isLoggedIn := true, user := some p.id } }
      if s1.syncState.isOnline then
        match walletsRes with
        | Except.error _ => authReconcileStage backupRes verAtBackup ver s1
        | Except.ok list =>
          if verAtWallets ≠ ver then s1
          else authReconcileStage backupRes verAtBackup ver { s1 with wallets := list }
      else authReconcileStage backupRes verAtBackup ver s1

/-- Source `logout`: saves the active wallet snapshot and reloads the personal one,
then resets the sync state to unauthenticated defaults (the logout-in-progress
flag is set and cleared within the call). -/
def logout (s : App) : App :=
  if s.isLoggingOut then s
  else
    let s1 :=
      match s.syncState.activeWalletId with
      | some wid => loadContextFromStorage none (saveCurrentContextToStorage (some wid) s)
      | none => s
    { s1 with
      wallets := [],
      syncState := { s1.syncState with
        isLoggedIn := false, user := none, activeWalletId := none,
        unsyncedChanges := false, isRealtimeConnected := false, lastSync := none } }

/-- Every operation of the modelled state manager that touches the sync
state: the thirteen mutating operations, context switching, push, restore,
the auth callback, and logout (network results carried as payloads). -/
inductive SyncOp
  | mutate (op : MutOp)
  | switchW (walletId : Option String) (remote : Option RemoteData)
  | backup (net : Except Unit Nat) (now : Nat)
  | restore (strat : RestoreStrat) (remote : Option (RemoteData × Option Nat))
  | auth (user : Option Profile) (walletsRes : Except Unit (List Wallet)) (verW : Nat)
      (backupRes : Option (RemoteData × Option Nat)) (verB : Nat)
  | logoutOp

/-- Apply a state-manager operation. -/
def applySyncOp : SyncOp → App → App
  | SyncOp.mutate op, s => applyMutOp op s
  | SyncOp.switchW w r, s => switchWallet w r s
  | SyncOp.backup net now, s => (backupUserData net now s).2.1
  | SyncOp.restore st r, s => (restoreBackup st r s).2
  | SyncOp.auth u wr vw br vb, s => handleAuthStateChange u wr vw br vb s
  | SyncOp.logoutOp, s => logout s

/-! ## Helper lemmas -/

theorem markAsDirty_unsynced (ss : SyncState) : (markAsDirty ss).unsyncedChanges = true := by
  unfold markAsDirty
  split
  · rfl
  · rename_i h
    simpa using h

theorem withDirty_unsynced (s : App) : (withDirty s).syncState.unsyncedChanges = true :=
  markAsDirty_unsynced s.syncState

theorem applyMutOp_unsynced (op : MutOp) (s : App) :
    (applyMutOp op s).syncState.unsyncedChanges = true := by
  cases op <;>
    simp [applyMutOp, addTransaction, importTransactions, updateTransaction,
      deleteTransaction, addAccount, updateAccountName, deleteAccount, addCategory,
      updateCategory, deleteCategory, updateBudget, updateCategoryBudget, updateSettings,
      withDirty_unsynced]

theorem foldl_applyMutOp_unsynced (ops : List MutOp) (s : App) (h : ops ≠ []) :
    (ops.foldl (fun st op => applyMutOp op st) s).syncState.unsyncedChanges = true := by
  induction ops generalizing s with
  | nil => exact absurd rfl h
  | cons o rest ih =>
    cases rest with
    | nil => simpa using applyMutOp_unsynced o s
    | cons o2 rest2 => exact ih (applyMutOp o s) (by simp)

/-! ## Claim C1 -/

/-- Claim C1: every mutating operation of the state manager (the thirteen
operations of `MutOp`, cascades included) leaves `unsyncedChanges = true`, so
after any non-empty sequence of mutating operations with no completed push in
between, `unsyncedChanges` is true. -/
theorem claim_C1_every_mutation_marks_dirty :
    (∀ (op : MutOp) (s : App), (applyMutOp op s).syncState.unsyncedChanges = true) ∧
    (∀ (ops : List MutOp) (s : App), ops ≠ [] →
      (ops.foldl (fun st op => applyMutOp op st) s).syncState.unsyncedChanges = true) :=
  ⟨applyMutOp_unsynced, foldl_applyMutOp_unsynced⟩

/-- A concrete example state: logged in, personal context, clean, online. -/
def exSyncState : SyncState :=
  ⟨true, some "u1", some 1000, false, false, true, false, false, none⟩

def exLegacy : ContextData :=
  ⟨[], INITIAL_ACCOUNTS, INITIAL_CATEGORIES, 0, [], DEFAULT_SETTINGS⟩

def exApp : App :=
  ⟨[], INITIAL_ACCOUNTS, INITIAL_CATEGORIES, 0, [], DEFAULT_SETTINGS, [],
    exSyncState, ⟨[], exLegacy⟩, false, false, 0⟩

theorem claim_C1_witness :
    ([MutOp.setBudget 5] ≠ ([] : List MutOp)) ∧
    ([MutOp.setBudget 5].foldl (fun st op => applyMutOp op st) exApp).syncState.unsyncedChanges
      = true :=
  ⟨by simp, claim_C1_every_mutation_marks_dirty.2 [MutOp.setBudget 5] exApp (by simp)⟩

/-! ## Claim C2 -/

theorem unsynced_reconcileOnLogin (br : Option (RemoteData × Option Nat)) (s : App) :
    (reconcileOnLogin br s).syncState.unsyncedChanges = s.syncState.unsyncedChanges := by
  unfold reconcileOnLogin
  rcases br with _ | ⟨r, ct⟩
  · rfl
  · dsimp only
    split <;> rfl

theorem unsynced_authReconcileStage (br : Option (RemoteData × Option Nat))
    (vb ver : Nat) (s : App) :
    (authReconcileStage br vb ver s).syncState.unsyncedChanges =
      s.syncState.unsyncedChanges := by
  unfold authReconcileStage
  split
  · rfl
  · split
    · rfl
    · exact unsynced_reconcileOnLogin br s

theorem unsynced_handleAuth_some (p : Profile) (wr : Except Unit (List Wallet)) (vw : Nat)
    (br : Option (RemoteData × Option Nat)) (vb : Nat) (s : App) :
    (handleAuthStateChange (some p) wr vw br vb s).syncState.unsyncedChanges =
      s.syncState.unsyncedChanges := by
  unfold handleAuthStateChange
  split
  · rfl
  · dsimp only
    split
    · rcases wr with e | list
      · simp [unsynced_authReconcileStage]
      · dsimp only
        split
        · rfl
        · simp [unsynced_authReconcileStage]
    · simp [unsynced_authReconcileStage]

theorem unsynced_restoreBackup (st : RestoreStrat) (r : Option (RemoteData × Option Nat))
    (s : App) :
    (restoreBackup st r s).2.syncState.unsyncedChanges = s.syncState.unsyncedChanges := by
  unfold restoreBackup
  rcases hu : s.syncState.user with _ | u
  · rfl
  · dsimp only
    cases st
    · rcases r with _ | ⟨rd, ts⟩
      · rfl
      · dsimp only
        rcases ts with _ | t <;> rfl
    · rcases r with _ | ⟨rd, ts⟩
      · rfl
      · dsimp only
        rcases ts with _ | t <;> rfl
    · rfl

theorem unsynced_backupUserData_error (e : Unit) (now : Nat) (s : App) :
    (backupUserData (Except.error e) now s).2.1.syncState.unsyncedChanges =
      s.syncState.unsyncedChanges := by
  unfold backupUserData
  split
  · rfl
  · rcases s.syncState.user with _ | u
    · rfl
    · rcases s.syncState.activeWalletId with _ | w <;> rfl

/-- The state used to exhibit a non-push clearing of the dirty flag. -/
def exAppDirty : App :=
  { exApp with syncState := { exSyncState with unsyncedChanges := true } }

/-- Claim C2 counterexample: from a state with `unsyncedChanges = true`,
`switchWallet` — which performs no push — returns a state with
`unsyncedChanges = false`, so an operation other than a successful push does
set the flag back to false. -/
theorem claim_C2_counterexample :
    exAppDirty.syncState.unsyncedChanges = true ∧
    (applySyncOp (SyncOp.switchW (some "w1") none) exAppDirty).syncState.unsyncedChanges
      = false := by
  constructor
  · rfl
  · rfl

/-- Claim C2 (amended): `unsyncedChanges` transitions from true to false only
as the result of a successful push, a context switch (`switchWallet`, which
unconditionally resets the flag), `logout`, or the auth callback processing a
signed-out session; no mutating operation or restore ever clears it. -/
theorem claim_C2_amended_clear_only_by (op : SyncOp) (s : App)
    (h1 : s.syncState.unsyncedChanges = true)
    (h2 : (applySyncOp op s).syncState.unsyncedChanges = false) :
    (∃ w r, op = SyncOp.switchW w r) ∨
    (∃ ts now, op = SyncOp.backup (Except.ok ts) now) ∨
    op = SyncOp.logoutOp ∨
    (∃ wr vw br vb, op = SyncOp.auth none wr vw br vb) := by
  cases op with
  | mutate o =>
    rw [show applySyncOp (SyncOp.mutate o) s = applyMutOp o s from rfl,
      applyMutOp_unsynced o s] at h2
    exact absurd h2 (by simp)
  | switchW w r => exact Or.inl ⟨w, r, rfl⟩
  | backup net now =>
    rcases net with e | ts
    · rw [show applySyncOp (SyncOp.backup (Except.error e) now) s =
        (backupUserData (Except.error e) now s).2.1 from rfl,
        unsynced_backupUserData_error e now s, h1] at h2
      exact absurd h2 (by simp)
    · exact Or.inr (Or.inl ⟨ts, now, rfl⟩)
  | restore st r =>
    rw [show applySyncOp (SyncOp.restore st r) s = (restoreBackup st r s).2 from rfl,
      unsynced_restoreBackup st r s, h1] at h2
    exact absurd h2 (by simp)
  | auth u wr vw br vb =>
    rcases u with _ | p
    · exact Or.inr (Or.inr (Or.inr ⟨wr, vw, br, vb, rfl⟩))
    · rw [show applySyncOp (SyncOp.auth (some p) wr vw br vb) s =
        handleAuthStateChange (some p) wr vw br vb s from rfl,
        unsynced_handleAuth_some p wr vw br vb s, h1] at h2
      exact absurd h2 (by simp)
  | logoutOp => exact Or.inr (Or.inr (Or.inl rfl))

theorem claim_C2_amended_witness :
    (∃ w r, SyncOp.logoutOp = SyncOp.switchW w r) ∨
    (∃ ts now, SyncOp.logoutOp = SyncOp.backup (Except.ok ts) now) ∨
    SyncOp.logoutOp = SyncOp.logoutOp ∨
    (∃ wr vw br vb, SyncOp.logoutOp = SyncOp.auth none wr vw br vb) :=
  claim_C2_amended_clear_only_by SyncOp.logoutOp exAppDirty rfl rfl

/-! ## Claim C4 -/

/-- Claim C4: `backupUserData` is single-flight — a call that finds the guard
flag set returns the skipped outcome (not an error), performs no network push
and leaves the state untouched; a call that finds the guard clear with a
logged-in user performs exactly one network push. -/
theorem claim_C4_single_flight :
    (∀ (net : Except Unit Nat) (now : Nat) (s : App), s.isBackingUp = true →
      backupUserData net now s = (Except.ok ⟨true, none⟩, s, 0)) ∧
    (∀ (net : Except Unit Nat) (now : Nat) (s : App) (u : String),
      s.isBackingUp = false → s.syncState.user = some u →
      (backupUserData net now s).2.2 = 1) := by
  constructor
  · intro net now s h
    unfold backupUserData
    rw [if_pos h]
  · intro net now s u h hu
    unfold backupUserData
    rw [if_neg (by simp [h]), hu]
    rcases s.syncState.activeWalletId with _ | w <;> rcases net with e | ts <;> rfl

def exAppBusy : App := { exApp with isBackingUp := true }

theorem claim_C4_witness :
    (exAppBusy.isBackingUp = true ∧
      backupUserData (Except.ok 7) 5 exAppBusy = (Except.ok ⟨true, none⟩, exAppBusy, 0)) ∧
    (exApp.isBackingUp = false ∧ exApp.syncState.user = some "u1" ∧
      (backupUserData (Except.ok 7) 5 exApp).2.2 = 1) :=
  ⟨⟨rfl, claim_C4_single_flight.1 (Except.ok 7) 5 exAppBusy rfl⟩,
   ⟨rfl, rfl, claim_C4_single_flight.2 (Except.ok 7) 5 exApp "u1" rfl rfl⟩⟩

/-! ## Claim C6 -/

/-- Claim C6: when the network push inside `backupUserData` fails, the error
is propagated to the caller, `unsyncedChanges` is left unchanged (hence still
true when it was true) and `lastSync` is not updated, so a later retry
observes the pending changes. -/
theorem claim_C6_push_failure (now : Nat) (s : App) (u : String) (e : Unit)
    (h : s.isBackingUp = false) (hu : s.syncState.user = some u) :
    (backupUserData (Except.error e) now s).1 = Except.error e ∧
    (backupUserData (Except.error e) now s).2.1.syncState.unsyncedChanges =
      s.syncState.unsyncedChanges ∧
    (backupUserData (Except.error e) now s).2.1.syncState.lastSync =
      s.syncState.lastSync ∧
    (s.syncState.unsyncedChanges = true →
      (backupUserData (Except.error e) now s).2.1.syncState.unsyncedChanges = true) := by
  unfold backupUserData
  rw [if_neg (by simp [h]), hu]
  rcases s.syncState.activeWalletId with _ | w
  · exact ⟨rfl, rfl, rfl, fun hh => hh⟩
  · exact ⟨rfl, rfl, rfl, fun hh => hh⟩

theorem claim_C6_witness :
    exAppDirty.isBackingUp = false ∧ exAppDirty.syncState.user = some "u1" ∧
    ((backupUserData (Except.error ()) 5 exAppDirty).1 = Except.error () ∧
     (backupUserData (Except.error ()) 5 exAppDirty).2.1.syncState.unsyncedChanges =
       exAppDirty.syncState.unsyncedChanges ∧
     (backupUserData (Except.error ()) 5 exAppDirty).2.1.syncState.lastSync =
       exAppDirty.syncState.lastSync ∧
     (exAppDirty.syncState.unsyncedChanges = true →
       (backupUserData (Except.error ()) 5 exAppDirty).2.1.syncState.unsyncedChanges = true)) :=
  ⟨rfl, rfl, claim_C6_push_failure 5 exAppDirty "u1" () rfl rfl⟩

/-! ## Claim C5 -/

/-- Claim C5: during login reconciliation the restore prompt is raised
exactly when the local last-sync pointer is absent or the remote timestamp
exceeds it by strictly more than the 1-second grace window; the live snapshot
is never mutated; with `lastSync = T`, a remote timestamp of `T + 500` does
not raise the prompt (the timestamp is silently adopted) while `T + 1500`
does. -/
theorem claim_C5_staleness_window :
    (∀ (s : App) (r : RemoteData) (ct : Option Nat),
      ((reconcileOnLogin (some (r, ct)) s).syncState.pendingRestoreAvailable = true ↔
        (s.syncState.lastSync = none ∨
          ∃ c l, ct = some c ∧ s.syncState.lastSync = some l ∧ l + 1000 < c)) ∧
      (reconcileOnLogin (some (r, ct)) s).transactions = s.transactions ∧
      (reconcileOnLogin (some (r, ct)) s).accounts = s.accounts ∧
      (reconcileOnLogin (some (r, ct)) s).categories = s.categories ∧
      (reconcileOnLogin (some (r, ct)) s).budget = s.budget ∧
      (reconcileOnLogin (some (r, ct)) s).categoryBudgets = s.categoryBudgets ∧
      (reconcileOnLogin (some (r, ct)) s).settings = s.settings) ∧
    (∀ (s : App) (r : RemoteData) (T : Nat), s.syncState.lastSync = some T →
      (reconcileOnLogin (some (r, some (T + 500))) s).syncState.pendingRestoreAvailable
        = false ∧
      (reconcileOnLogin (some (r, some (T + 500))) s).syncState.lastSync = some (T + 500) ∧
      (reconcileOnLogin (some (r, some (T + 1500))) s).syncState.pendingRestoreAvailable
        = true) := by
  have hsnap : ∀ (br : Option (RemoteData × Option Nat)) (s : App),
      (reconcileOnLogin br s).transactions = s.transactions ∧
      (reconcileOnLogin br s).accounts = s.accounts ∧
      (reconcileOnLogin br s).categories = s.categories ∧
      (reconcileOnLogin br s).budget = s.budget ∧
      (reconcileOnLogin br s).categoryBudgets = s.categoryBudgets ∧
      (reconcileOnLogin br s).settings = s.settings := by
    intro br s
    unfold reconcileOnLogin
    rcases br with _ | ⟨r, ct⟩
    · exact ⟨rfl, rfl, rfl, rfl, rfl, rfl⟩
    · dsimp only
      split <;> exact ⟨rfl, rfl, rfl, rfl, rfl, rfl⟩
  constructor
  · intro s r ct
    refine ⟨?_, hsnap (some (r, ct)) s⟩
    unfold reconcileOnLogin
    rcases hls : s.syncState.lastSync with _ | l
    · simp [hls]
    · rcases ct with _ | c
      · simp [hls]
      · by_cases hc : l + 1000 < c
        · simp [hls, hc]
        · simp [hls, hc]
  · intro s r T hT
    unfold reconcileOnLogin
    refine ⟨?_, ?_, ?_⟩
    · simp [hT, show ¬(T + 1000 < T + 500) by omega]
    · simp [hT, show ¬(T + 1000 < T + 500) by omega]
    · simp [hT, show T + 1000 < T + 1500 by omega]

def exRemote : RemoteData := ⟨none, none, none, none, none, none⟩

theorem claim_C5_witness :
    exApp.syncState.lastSync = some 1000 ∧
    ((reconcileOnLogin (some (exRemote, some (1000 + 500))) exApp).syncState.pendingRestoreAvailable = false ∧
     (reconcileOnLogin (some (exRemote, some (1000 + 500))) exApp).syncState.lastSync = some (1000 + 500) ∧
     (reconcileOnLogin (some (exRemote, some (1000 + 1500))) exApp).syncState.pendingRestoreAvailable = true) :=
  ⟨rfl, claim_C5_staleness_window.2 exApp exRemote 1000 rfl⟩

/-! ## Claim C10 -/

/-- Claim C10: each asynchronous continuation of the login transition checks
the session generation counter at completion time against its spawn value.
If the wallet-list continuation finds a mismatch, the whole handler aborts:
the result is exactly the state after the synchronous prefix (profile
recorded, generation bumped) — wallets, snapshot and reconcile state are
untouched. If the backup continuation finds a mismatch, the fetched envelope
is discarded: the result is exactly the state after the wallet-list update. -/
theorem claim_C10_session_guard (p : Profile) (wr : List Wallet) (vW : Nat)
    (br : Option (RemoteData × Option Nat)) (vB : Nat) (s : App)
    (hlo : s.isLoggingOut = false) (hon : s.syncState.isOnline = true) :
    (vW ≠ s.sessionVersion + 1 →
      handleAuthStateChange (some p) (Except.ok wr) vW br vB s =
        { s with sessionVersion := s.sessionVersion + 1,
                 syncState := { s.syncState with isLoggedIn := true, user := some p.id } }) ∧
    (vB ≠ s.sessionVersion + 1 →
      handleAuthStateChange (some p) (Except.ok wr) (s.sessionVersion + 1) br vB s =
        { s with sessionVersion := s.sessionVersion + 1,
                 wallets := wr,
                 syncState := { s.syncState with isLoggedIn := true, user := some p.id } }) := by
  constructor
  · intro hvW
    unfold handleAuthStateChange
    rw [if_neg (by simp [hlo])]
    dsimp only
    rw [if_pos (by simpa using hon), if_pos hvW]
  · intro hvB
    unfold handleAuthStateChange
    rw [if_neg (by simp [hlo])]
    dsimp only
    rw [if_pos (by simpa using hon), if_neg (by simp)]
    unfold authReconcileStage
    split_ifs with h1
    · rfl
    · rfl

theorem claim_C10_witness :
    exApp.isLoggingOut = false ∧ exApp.syncState.isOnline = true ∧
    (0 : Nat) ≠ exApp.sessionVersion + 1 ∧
    handleAuthStateChange (some ⟨"u1"⟩) (Except.ok []) 0 none 0 exApp =
      { exApp with sessionVersion := exApp.sessionVersion + 1,
                   syncState := { exApp.syncState with isLoggedIn := true, user := some "u1" } } :=
  ⟨rfl, rfl, by decide,
    (claim_C10_session_guard ⟨"u1"⟩ [] 0 none 0 exApp rfl rfl).1 (by decide)⟩

/-! ## Claim C7 -/

/-- Claim C7 counterexample: switching to a wallet whose snapshot is absent
from the Local Store initializes the accounts and categories to exactly the
personal initial sets (`INITIAL_ACCOUNTS` / `INITIAL_CATEGORIES`), which are
nonempty — not to an empty snapshot distinct from the personal defaults. -/
theorem claim_C7_counterexample :
    storeGet exApp.store.contexts (some "w1") = none ∧
    (loadContextFromStorage (some "w1") exApp).accounts = INITIAL_ACCOUNTS ∧
    (loadContextFromStorage (some "w1") exApp).categories = INITIAL_CATEGORIES ∧
    INITIAL_ACCOUNTS ≠ [] ∧ INITIAL_CATEGORIES ≠ [] := by
  refine ⟨rfl, rfl, rfl, by decide, by decide⟩

/-- Claim C7 (amended): when `switchContext` targets a wallet whose snapshot
is absent from the Local Store, the live snapshot is initialized with empty
transactions, zero budget, empty per-category budgets and default settings,
but with the personal initial account and category sets (the same
`INITIAL_ACCOUNTS` / `INITIAL_CATEGORIES` the personal context uses), not an
empty account/category list. -/
theorem claim_C7_amended_wallet_defaults (s : App) (wid : String)
    (h : storeGet s.store.contexts (some wid) = none) :
    (loadContextFromStorage (some wid) s).transactions = [] ∧
    (loadContextFromStorage (some wid) s).accounts = INITIAL_ACCOUNTS ∧
    (loadContextFromStorage (some wid) s).categories = INITIAL_CATEGORIES ∧
    (loadContextFromStorage (some wid) s).budget = 0 ∧
    (loadContextFromStorage (some wid) s).categoryBudgets = [] ∧
    (loadContextFromStorage (some wid) s).settings = DEFAULT_SETTINGS := by
  unfold loadContextFromStorage
  rw [h]
  exact ⟨rfl, rfl, rfl, rfl, rfl, rfl⟩

theorem claim_C7_amended_witness :
    storeGet exApp.store.contexts (some "w1") = none ∧
    ((loadContextFromStorage (some "w1") exApp).transactions = [] ∧
     (loadContextFromStorage (some "w1") exApp).accounts = INITIAL_ACCOUNTS ∧
     (loadContextFromStorage (some "w1") exApp).categories = INITIAL_CATEGORIES ∧
     (loadContextFromStorage (some "w1") exApp).budget = 0 ∧
     (loadContextFromStorage (some "w1") exApp).categoryBudgets = [] ∧
     (loadContextFromStorage (some "w1") exApp).settings = DEFAULT_SETTINGS) :=
  ⟨rfl, claim_C7_amended_wallet_defaults exApp "w1" rfl⟩

/-! ## Claim C8 -/

theorem lookup_append_left {k : String} {v : String} (l1 l2 : List (String × String))
    (h : l1.lookup k = some v) : (l1 ++ l2).lookup k = some v := by
  induction l1 with
  | nil => simp [List.lookup] at h
  | cons p rest ih =>
    rcases p with ⟨k', v'⟩
    cases hk : k == k'
    · simp only [List.cons_append, List.lookup, hk] at h ⊢
      exact ih h
    · simp only [List.cons_append, List.lookup, hk] at h ⊢
      exact h

theorem jsSpread_map_lookup (b : Settings) (k v : String) :
    ∀ (a : Settings), ((a.map Prod.fst).Nodup) → (k, v) ∈ a → (∀ q ∈ b, q.1 ≠ k) →
    ((a.map (fun p =>
      match b.find? (fun q => q.1 == p.1) with
      | some q => (p.1, q.2)
      | none => p)).lookup k) = some v := by
  intro a
  induction a with
  | nil => intro _ hmem; simp at hmem
  | cons p rest ih =>
    intro hnd hmem hk
    simp only [List.map_cons] at hnd ⊢
    have hnd1 := List.nodup_cons.1 hnd
    by_cases hkey : p.1 = k
    · -- the head is the unique entry with key k
      have hp : p = (k, v) := by
        rcases List.mem_cons.1 hmem with h | h
        · exact h.symm
        · exfalso
          have hkm : k ∈ rest.map Prod.fst := List.mem_map.2 ⟨(k, v), h, rfl⟩
          exact hnd1.1 (hkey ▸ hkm)
      have hfind : b.find? (fun q => q.1 == k) = none := by
        rw [List.find?_eq_none]
        intro q hq
        simpa using hk q hq
      subst hp
      simp only [hfind]
      simp [List.lookup]
    · -- skip the head, recurse
      have hmem2 : (k, v) ∈ rest := by
        rcases List.mem_cons.1 hmem with h | h
        · exact absurd (congrArg Prod.fst h.symm) hkey
        · exact h
      have hbk : (k == p.1) = false := by
        simp only [beq_eq_false_iff_ne, ne_eq]
        exact fun hh => hkey hh.symm
      rcases hfq : b.find? (fun q2 => q2.1 == p.1) with _ | q2
      · simp only [hfq]
        simp only [List.lookup, hbk]
        exact ih hnd1.2 hmem2 hk
      · simp only [hfq]
        simp only [List.lookup, hbk]
        exact ih hnd1.2 hmem2 hk

/-- A local-only settings key survives `jsSpread` with its local value. -/
theorem jsSpread_keeps_local_only (a b : Settings) (k v : String)
    (hnd : (a.map Prod.fst).Nodup) (hmem : (k, v) ∈ a) (hk : ∀ q ∈ b, q.1 ≠ k) :
    (jsSpread a b).lookup k = some v := by
  unfold jsSpread
  exact lookup_append_left _ _ (jsSpread_map_lookup b k v a hnd hmem hk)

def exAppC8 : App :=
  { exApp with budget := 100, categoryBudgets := [⟨"c1", 50⟩],
               settings := [("theme", "dark"), ("language", "en")] }

def exRemoteC8 : RemoteData :=
  ⟨some [], some [], some [], none, some [], some [("language", "fr")]⟩

/-- Claim C8 counterexample: in a merge restore the local overall budget
(100, no remote value) is reset to 0 and the local per-category budget entry
(no remote counterpart) is dropped — they are replaced wholesale by the
remote values, not shallow-merged. -/
theorem claim_C8_counterexample :
    exAppC8.budget = 100 ∧ exAppC8.categoryBudgets = [⟨"c1", 50⟩] ∧
    (restoreBackup RestoreStrat.merge (some (exRemoteC8, none)) exAppC8).2.budget = 0 ∧
    (restoreBackup RestoreStrat.merge (some (exRemoteC8, none)) exAppC8).2.categoryBudgets
      = [] := by
  refine ⟨rfl, rfl, rfl, rfl⟩

/-- Claim C8 (amended): in `restoreBackup('merge')` the settings are
shallow-merged with remote values overriding matching keys — a local settings
key with no remote counterpart keeps its local value — but the overall budget
and the per-category budgets are replaced wholesale by the remote values
(falling back to 0 / empty when absent remotely), dropping any local-only
values. -/
theorem claim_C8_amended_merge_shallow (s : App) (r : RemoteData) (ts : Option Nat)
    (u k v : String) (m : Settings)
    (hu : s.syncState.user = some u) (hm : r.settings = some m) :
    ((s.settings.map Prod.fst).Nodup → (k, v) ∈ s.settings → (∀ q ∈ m, q.1 ≠ k) →
      ((restoreBackup RestoreStrat.merge (some (r, ts)) s).2.settings).lookup k = some v) ∧
    (restoreBackup RestoreStrat.merge (some (r, ts)) s).2.categoryBudgets =
      r.category_budgets.getD [] ∧
    (restoreBackup RestoreStrat.merge (some (r, ts)) s).2.budget = jsOrNumOpt r.budget 0 := by
  have hsettings : (restoreBackup RestoreStrat.merge (some (r, ts)) s).2.settings =
      jsSpread s.settings m := by
    unfold restoreBackup
    rw [hu]
    dsimp only
    rw [hm]
    rcases ts with _ | t <;> rfl
  have hcb : (restoreBackup RestoreStrat.merge (some (r, ts)) s).2.categoryBudgets =
      r.category_budgets.getD [] := by
    unfold restoreBackup
    rw [hu]
    dsimp only
    rcases ts with _ | t <;> rfl
  have hb : (restoreBackup RestoreStrat.merge (some (r, ts)) s).2.budget =
      jsOrNumOpt r.budget 0 := by
    unfold restoreBackup
    rw [hu]
    dsimp only
    rcases ts with _ | t <;> rfl
  refine ⟨?_, hcb, hb⟩
  intro hnd hmem hk
  rw [hsettings]
  exact jsSpread_keeps_local_only s.settings m k v hnd hmem hk

theorem claim_C8_amended_witness :
    exAppC8.syncState.user = some "u1" ∧ exRemoteC8.settings = some [("language", "fr")] ∧
    (exAppC8.settings.map Prod.fst).Nodup ∧ ("theme", "dark") ∈ exAppC8.settings ∧
    (∀ q ∈ [("language", "fr")], q.1 ≠ "theme") ∧
    ((restoreBackup RestoreStrat.merge (some (exRemoteC8, none)) exAppC8).2.settings).lookup
      "theme" = some "dark" ∧
    (restoreBackup RestoreStrat.merge (some (exRemoteC8, none)) exAppC8).2.categoryBudgets =
      exRemoteC8.category_budgets.getD [] ∧
    (restoreBackup RestoreStrat.merge (some (exRemoteC8, none)) exAppC8).2.budget =
      jsOrNumOpt exRemoteC8.budget 0 := by
  have h := claim_C8_amended_merge_shallow exAppC8 exRemoteC8 none "u1" "theme" "dark"
    [("language", "fr")] rfl rfl
  exact ⟨rfl, rfl, by decide, by decide, by decide,
    h.1 (by decide) (by decide) (by decide), h.2.1, h.2.2⟩

/-! ## Claim C3 -/

/-- The ids of a transaction list. -/
def txIds (l : List Tx) : List String := l.map Tx.id

theorem txMapSet_of_not_mem (m : List Tx) (t : Tx) (h : ∀ u ∈ m, u.id ≠ t.id) :
    txMapSet m t = m ++ [t] := by
  unfold txMapSet
  have hany : m.any (fun u => u.id == t.id) = false := by
    rw [List.any_eq_false]
    intro u hu
    simpa using h u hu
  rw [hany]
  simp

theorem foldl_txMapSet (cloud : List Tx) : ∀ (m : List Tx),
    (txIds (m ++ cloud)).Nodup → cloud.foldl txMapSet m = m ++ cloud := by
  induction cloud with
  | nil => intro m _; simp
  | cons c rest ih =>
    intro m hnd
    have hstep : txMapSet m c = m ++ [c] := by
      apply txMapSet_of_not_mem
      intro u hu hne
      have hd := List.nodup_append.1 (by simpa [txIds] using hnd)
      exact hd.2.2 (List.mem_map.2 ⟨u, hu, rfl⟩) (by simp [hne])
    rw [List.foldl_cons, hstep]
    have h2 : (txIds (m ++ [c] ++ rest)).Nodup := by
      simpa [txIds, List.append_assoc] using hnd
    rw [ih (m ++ [c]) h2]
    simp

theorem foldl_txMapSetIfAbsent (lcl : List Tx) : ∀ (m : List Tx),
    (txIds lcl).Nodup →
    lcl.foldl txMapSetIfAbsent m =
      m ++ lcl.filter (fun t => !(m.any (fun u => u.id == t.id))) := by
  induction lcl with
  | nil => intro m _; simp
  | cons t rest ih =>
    intro m hnd
    have hnd0 : t.id ∉ txIds rest ∧ (txIds rest).Nodup := by
      simpa [txIds] using hnd
    rw [List.foldl_cons]
    by_cases hmem : m.any (fun u => u.id == t.id) = true
    · have hskip : txMapSetIfAbsent m t = m := by
        unfold txMapSetIfAbsent
        rw [hmem]
        simp
      rw [hskip, ih m hnd0.2]
      congr 1
      rw [List.filter_cons]
      simp [hmem]
    · have hmem' : m.any (fun u => u.id == t.id) = false := by
        cases h : m.any (fun u => u.id == t.id)
        · rfl
        · exact absurd h hmem
      have hstep : txMapSetIfAbsent m t = m ++ [t] := by
        unfold txMapSetIfAbsent
        rw [hmem']
        simp
      rw [hstep, ih (m ++ [t]) hnd0.2]
      have hfil : rest.filter (fun x => !((m ++ [t]).any (fun u => u.id == x.id))) =
          rest.filter (fun x => !(m.any (fun u => u.id == x.id))) := by
        apply List.filter_congr
        intro x hx
        have hne : (t.id == x.id) = false := by
          simp only [beq_eq_false_iff_ne, ne_eq]
          intro hh
          exact hnd0.1 (by rw [hh]; exact List.mem_map.2 ⟨x, hx, rfl⟩)
        simp [List.any_append, hne]
      rw [hfil, List.filter_cons]
      simp [hmem']

/-- The id-keyed union before sorting: all cloud entries, then the local
entries whose id is absent from the cloud. -/
def premergeTxs (cloudTxs prevTxs : List Tx) : List Tx :=
  cloudTxs ++ prevTxs.filter (fun t => !(cloudTxs.any (fun u => u.id == t.id)))

theorem mergeTxs_eq_sort_premerge (cloud lcl : List Tx)
    (hc : (txIds cloud).Nodup) (hl : (txIds lcl).Nodup) :
    mergeTxs cloud lcl = sortByDateDesc (premergeTxs cloud lcl) := by
  unfold mergeTxs premergeTxs
  have h1 : cloud.foldl txMapSet [] = cloud := by
    simpa using foldl_txMapSet cloud [] (by simpa [txIds] using hc)
  rw [h1, foldl_txMapSetIfAbsent lcl cloud hl]

theorem mergeTxs_perm_premerge (cloud lcl : List Tx)
    (hc : (txIds cloud).Nodup) (hl : (txIds lcl).Nodup) :
    (mergeTxs cloud lcl).Perm (premergeTxs cloud lcl) := by
  rw [mergeTxs_eq_sort_premerge cloud lcl hc hl]
  exact List.perm_insertionSort dateGe _

/-- Claim C3: the merge-restore strategy replaces the transaction list with
exactly the union of local and remote keyed by id — remote wins on every id
collision, local-only ids are preserved — with no duplicate ids, sorted
descending by date; and `restoreBackup('merge')` computes exactly this union
of the fetched cloud transactions with the live ones. -/
theorem claim_C3_merge_union (cloud lcl : List Tx)
    (hc : (txIds cloud).Nodup) (hl : (txIds lcl).Nodup) :
    (∀ t, t ∈ mergeTxs cloud lcl ↔
      (t ∈ cloud ∨ (t ∈ lcl ∧ ∀ c ∈ cloud, c.id ≠ t.id))) ∧
    (txIds (mergeTxs cloud lcl)).Nodup ∧
    (mergeTxs cloud lcl).Pairwise (fun a b => b.date ≤ a.date) ∧
    (∀ (s : App) (r : RemoteData) (ts : Option Nat) (u : String),
      s.syncState.user = some u →
      (restoreBackup RestoreStrat.merge (some (r, ts)) s).2.transactions =
        mergeTxs (r.transactions.getD []) s.transactions) := by
  have hperm := mergeTxs_perm_premerge cloud lcl hc hl
  refine ⟨?_, ?_, ?_, ?_⟩
  · intro t
    rw [hperm.mem_iff]
    unfold premergeTxs
    simp only [List.mem_append, List.mem_filter, Bool.not_eq_true', List.any_eq_false,
      beq_iff_eq, ne_eq]
  · have hmap : (txIds (mergeTxs cloud lcl)).Perm (txIds (premergeTxs cloud lcl)) :=
      hperm.map Tx.id
    rw [hmap.nodup_iff]
    unfold premergeTxs txIds
    rw [List.map_append, List.nodup_append]
    refine ⟨hc, ?_, ?_⟩
    · exact hl.sublist ((List.filter_sublist lcl).map Tx.id)
    · intro x hx hxf
      rcases List.mem_map.1 hx with ⟨c, hcmem, rfl⟩
      rcases List.mem_map.1 hxf with ⟨t, htmem, hid⟩
      have hcond := (List.mem_filter.1 htmem).2
      rw [Bool.not_eq_true', List.any_eq_false] at hcond
      have hne : ¬c.id = t.id := by simpa using hcond c hcmem
      exact hne hid.symm
  · rw [mergeTxs_eq_sort_premerge cloud lcl hc hl]
    unfold sortByDateDesc
    exact List.Pairwise.imp (fun h => h) (List.sorted_insertionSort dateGe (premergeTxs cloud lcl))
  · intro s r ts u hu
    unfold restoreBackup
    rw [hu]
    dsimp only
    rcases ts with _ | t <;> rfl

def exT1 : Tx := ⟨"t1", TxType.expense, 10, 3000, "", none, none, none, none, false⟩
def exT2 : Tx := ⟨"t2", TxType.expense, 20, 2000, "", none, none, none, none, false⟩
def exT2p : Tx := ⟨"t2", TxType.income, 25, 2500, "", none, none, none, none, false⟩
def exT3 : Tx := ⟨"t3", TxType.expense, 30, 1000, "", none, none, none, none, false⟩

theorem claim_C3_witness :
    (txIds [exT2p, exT3]).Nodup ∧ (txIds [exT1, exT2]).Nodup ∧
    mergeTxs [exT2p, exT3] [exT1, exT2] = [exT1, exT2p, exT3] ∧
    ((∀ t, t ∈ mergeTxs [exT2p, exT3] [exT1, exT2] ↔
        (t ∈ [exT2p, exT3] ∨ (t ∈ [exT1, exT2] ∧ ∀ c ∈ [exT2p, exT3], c.id ≠ t.id))) ∧
     (txIds (mergeTxs [exT2p, exT3] [exT1, exT2])).Nodup ∧
     (mergeTxs [exT2p, exT3] [exT1, exT2]).Pairwise (fun a b => b.date ≤ a.date) ∧
     (∀ (s : App) (r : RemoteData) (ts : Option Nat) (u : String),
       s.syncState.user = some u →
       (restoreBackup RestoreStrat.merge (some (r, ts)) s).2.transactions =
         mergeTxs (r.transactions.getD []) s.transactions)) :=
  ⟨by decide, by decide, by decide,
    claim_C3_merge_union [exT2p, exT3] [exT1, exT2] (by decide) (by decide)⟩

/-! ## Claim C9 -/

theorem load_syncState (w : Option String) (s : App) :
    (loadContextFromStorage w s).syncState = s.syncState := by
  unfold loadContextFromStorage
  split
  · rfl
  · split <;> rfl

theorem load_store (w : Option String) (s : App) :
    (loadContextFromStorage w s).store = s.store := by
  unfold loadContextFromStorage
  split
  · rfl
  · split <;> rfl

theorem applyRemote_syncState (r : RemoteData) (s : App) :
    (applyRemoteWalletData r s).syncState = s.syncState := rfl

theorem applyRemote_store (r : RemoteData) (s : App) :
    (applyRemoteWalletData r s).store = s.store := rfl

theorem switchWallet_active (w : Option String) (rm : Option RemoteData) (t : App) :
    (switchWallet w rm t).syncState.activeWalletId = w := by
  unfold switchWallet
  dsimp only
  split
  · split
    · rw [applyRemote_syncState, load_syncState]
    · rw [load_syncState]
  · rw [load_syncState]

theorem switchWallet_online (w : Option String) (rm : Option RemoteData) (t : App) :
    (switchWallet w rm t).syncState.isOnline = t.syncState.isOnline := by
  unfold switchWallet
  dsimp only
  split
  · split
    · rw [applyRemote_syncState, load_syncState]
      rfl
    · rw [load_syncState]
      rfl
  · rw [load_syncState]
    rfl

theorem switchWallet_storeContexts (w : Option String) (rm : Option RemoteData) (t : App) :
    (switchWallet w rm t).store.contexts =
      storeSet t.store.contexts t.syncState.activeWalletId (snapshotOf t) := by
  unfold switchWallet
  dsimp only
  split
  · split
    · rw [applyRemote_store, load_store]
      rfl
    · rw [load_store]
      rfl
  · rw [load_store]
    rfl

theorem find_after_replace (k : Option String) (v : ContextData) :
    ∀ (m : List (Option String × ContextData)), m.any (fun p => p.1 == k) = true →
    ((m.map (fun p => if p.1 == k then (k, v) else p)).find? (fun p => p.1 == k))
      = some (k, v) := by
  intro m
  induction m with
  | nil => intro h; simp at h
  | cons p rest ih =>
    intro h
    by_cases hp : (p.1 == k) = true
    · simp only [List.map_cons, if_pos hp]
      simp [List.find?_cons]
    · have hp' : (p.1 == k) = false := by simpa using hp
      simp only [List.map_cons, if_neg hp]
      simp only [List.find?_cons, hp']
      apply ih
      rw [List.any_cons] at h
      rcases Bool.or_eq_true_iff.1 h with h1 | h1
      · exact absurd h1 hp
      · exact h1

theorem find_append_absent (k : Option String) (v : ContextData)
    (m : List (Option String × ContextData)) (h : m.any (fun p => p.1 == k) = false) :
    ((m ++ [(k, v)]).find? (fun p => p.1 == k)) = some (k, v) := by
  induction m with
  | nil => simp [List.find?_cons]
  | cons p rest ih =>
    rw [List.any_cons, Bool.or_eq_false_iff] at h
    simp only [List.cons_append, List.find?_cons, h.1]
    exact ih h.2

theorem storeGet_storeSet_same (m : List (Option String × ContextData))
    (k : Option String) (v : ContextData) : storeGet (storeSet m k v) k = some v := by
  unfold storeSet storeGet
  by_cases h : m.any (fun p => p.1 == k) = true
  · rw [if_pos h, find_after_replace k v m h]
    rfl
  · have h' : m.any (fun p => p.1 == k) = false := by
      cases hh : m.any (fun p => p.1 == k)
      · rfl
      · exact absurd hh h
    rw [if_neg h, find_append_absent k v m h']
    rfl

theorem find_replace_other (k k' : Option String) (v : ContextData) (hne : k' ≠ k) :
    ∀ (m : List (Option String × ContextData)),
    ((m.map (fun p => if p.1 == k then (k, v) else p)).find? (fun p => p.1 == k'))
      = m.find? (fun p => p.1 == k') := by
  intro m
  induction m with
  | nil => rfl
  | cons p rest ih =>
    by_cases hp : (p.1 == k) = true
    · have hkk : (k == k') = false := beq_eq_false_iff_ne.2 (Ne.symm hne)
      have hpk : p.1 = k := by simpa using hp
      have hp2 : (p.1 == k') = false := by rw [hpk]; exact hkk
      simp only [List.map_cons, if_pos hp]
      simp only [List.find?_cons, hkk, hp2]
      exact ih
    · cases hq : (p.1 == k')
      · simp only [List.map_cons, if_neg hp]
        simp only [List.find?_cons, hq]
        exact ih
      · simp only [List.map_cons, if_neg hp]
        simp only [List.find?_cons, hq]

theorem storeGet_storeSet_other (m : List (Option String × ContextData))
    (k k' : Option String) (v : ContextData) (hne : k' ≠ k) :
    storeGet (storeSet m k v) k' = storeGet m k' := by
  unfold storeSet storeGet
  split
  · rw [find_replace_other k k' v hne m]
  · rw [List.find?_append]
    have hkk : (k == k') = false := beq_eq_false_iff_ne.2 (Ne.symm hne)
    have hlast : ([(k, v)] : List (Option String × ContextData)).find?
        (fun p => p.1 == k') = none := by
      simp [List.find?_cons, hkk]
    rw [hlast]
    cases m.find? (fun p => p.1 == k') <;> rfl

theorem load_of_get (w : Option String) (s : App) (d : ContextData)
    (h : storeGet s.store.contexts w = some d) :
    loadContextFromStorage w s =
      { s with
        transactions := d.transactions,
        accounts := d.accounts,
        categories := d.categories,
        budget := jsOrNum d.budget 0,
        categoryBudgets := d.category_budgets,
        settings := jsSpread s.settings d.settings } := by
  unfold loadContextFromStorage
  rw [h]

/-- When the target snapshot is present and the remote-overwrite condition is
false, `switchWallet` is exactly: save the outgoing snapshot, set the active
id and clear the dirty flag, and load the stored data. -/
theorem switchWallet_components (w : Option String) (rm : Option RemoteData) (t : App)
    (d : ContextData)
    (hget : storeGet (storeSet t.store.contexts t.syncState.activeWalletId (snapshotOf t)) w
      = some d)
    (hcond : (w.isSome && t.syncState.isOnline) = false) :
    switchWallet w rm t =
      { t with
        transactions := d.transactions,
        accounts := d.accounts,
        categories := d.categories,
        budget := jsOrNum d.budget 0,
        categoryBudgets := d.category_budgets,
        settings := jsSpread t.settings d.settings,
        store := { t.store with
          contexts := storeSet t.store.contexts t.syncState.activeWalletId (snapshotOf t) },
        syncState := { t.syncState with activeWalletId := w, unsyncedChanges := false } } := by
  unfold switchWallet saveCurrentContextToStorage
  dsimp only
  rw [load_of_get w _ d hget]
  dsimp only
  rw [hcond]
  rfl

/-- The map part of `jsSpread x a` rebuilds `a` exactly when `x` carries the
same key sequence and `a` has unique keys. -/
theorem jsSpread_map_rebuild : ∀ (x a : Settings),
    x.map Prod.fst = a.map Prod.fst → (a.map Prod.fst).Nodup →
    x.map (fun p => match a.find? (fun q => q.1 == p.1) with
      | some q => (p.1, q.2)
      | none => p) = a := by
  intro x
  induction x with
  | nil =>
    intro a h _
    cases a
    · rfl
    · simp at h
  | cons p xs ih =>
    intro a h hnd
    cases a with
    | nil => simp at h
    | cons q as =>
      simp only [List.map_cons, List.cons.injEq] at h
      simp only [List.map_cons] at hnd
      have hnd1 := List.nodup_cons.1 hnd
      have hq : (q.1 == p.1) = true := by simp [h.1]
      have hfind : (q :: as).find? (fun q2 => q2.1 == p.1) = some q :=
        List.find?_cons_of_pos _ hq
      simp only [List.map_cons, hfind]
      have htail : xs.map (fun p2 => match (q :: as).find? (fun q2 => q2.1 == p2.1) with
          | some q2 => (p2.1, q2.2)
          | none => p2) = as := by
        have hcongr : ∀ p2 ∈ xs, (match (q :: as).find? (fun q2 => q2.1 == p2.1) with
            | some q2 => (p2.1, q2.2)
            | none => p2) =
            (match as.find? (fun q2 => q2.1 == p2.1) with
            | some q2 => (p2.1, q2.2)
            | none => p2) := by
          intro p2 hp2
          have hh : (q.1 == p2.1) = false := by
            simp only [beq_eq_false_iff_ne, ne_eq]
            intro hqq
            have hmm : p2.1 ∈ as.map Prod.fst := by
              rw [← h.2]
              exact List.mem_map.2 ⟨p2, hp2, rfl⟩
            exact hnd1.1 (hqq ▸ hmm)
          rw [List.find?_cons_of_neg _ (by simp [hh])]
        rw [List.map_congr_left hcongr]
        exact ih as h.2 hnd1.2
      rw [htail, h.1, Prod.mk.eta]

/-- Equation `jsSpread x a = a` holds when `x` has exactly `a`'s keys (in order) and `a` has
unique keys: spreading the authoritative object over a same-shaped one
restores it exactly. -/
theorem jsSpread_self_keys (x a : Settings)
    (hkeys : x.map Prod.fst = a.map Prod.fst) (hnd : (a.map Prod.fst).Nodup) :
    jsSpread x a = a := by
  unfold jsSpread
  have hfil : a.filter (fun q => !(x.any (fun p => p.1 == q.1))) = [] := by
    rw [List.filter_eq_nil_iff]
    intro q hq
    have hany : x.any (fun p => p.1 == q.1) = true := by
      rw [List.any_eq_true]
      have hmm : q.1 ∈ x.map Prod.fst := by
        rw [hkeys]
        exact List.mem_map.2 ⟨q, hq, rfl⟩
      rcases List.mem_map.1 hmm with ⟨p, hp, hpq⟩
      exact ⟨p, hp, by simp [hpq]⟩
    simp [hany]
  rw [hfil, List.append_nil]
  exact jsSpread_map_rebuild x a hkeys hnd

theorem jsOrNum_zero (n : Nat) : jsOrNum n 0 = n := by
  unfold jsOrNum
  split
  · omega
  · rfl

/-- Claim C9: switching away from context A and back restores A's live
snapshot exactly, provided the return switch applies no remote wallet
overwrite (A is the personal context or the device is offline); the outgoing
save always runs before the active-context change and the incoming load, so
the snapshot written under A's key in the first switch is read back intact by
the second. The settings hypotheses state that the settings objects are
well-formed records over the same key set (which the typed source guarantees
for every `AppSettings` value). -/
theorem claim_C9_round_trip (s : App) (B : Option String)
    (remoteB remoteA : Option RemoteData)
    (hAB : B ≠ s.syncState.activeWalletId)
    (hoff : s.syncState.activeWalletId = none ∨ s.syncState.isOnline = false)
    (hnd : (s.settings.map Prod.fst).Nodup)
    (hkeys : (switchWallet B remoteB s).settings.map Prod.fst = s.settings.map Prod.fst) :
    (switchWallet s.syncState.activeWalletId remoteA (switchWallet B remoteB s)).transactions
      = s.transactions ∧
    (switchWallet s.syncState.activeWalletId remoteA (switchWallet B remoteB s)).accounts
      = s.accounts ∧
    (switchWallet s.syncState.activeWalletId remoteA (switchWallet B remoteB s)).categories
      = s.categories ∧
    (switchWallet s.syncState.activeWalletId remoteA (switchWallet B remoteB s)).budget
      = s.budget ∧
    (switchWallet s.syncState.activeWalletId remoteA (switchWallet B remoteB s)).categoryBudgets
      = s.categoryBudgets ∧
    (switchWallet s.syncState.activeWalletId remoteA (switchWallet B remoteB s)).settings
      = s.settings := by
  have hcond : (s.syncState.activeWalletId.isSome &&
      (switchWallet B remoteB s).syncState.isOnline) = false := by
    rw [switchWallet_online]
    rcases hoff with h | h
    · rw [h]
      rfl
    · rw [h]
      simp
  have hget : storeGet (storeSet (switchWallet B remoteB s).store.contexts
      (switchWallet B remoteB s).syncState.activeWalletId
      (snapshotOf (switchWallet B remoteB s)))
      s.syncState.activeWalletId = some (snapshotOf s) := by
    rw [switchWallet_active, switchWallet_storeContexts]
    rw [storeGet_storeSet_other _ B _ _ (Ne.symm hAB)]
    exact storeGet_storeSet_same _ _ _
  rw [switchWallet_components s.syncState.activeWalletId remoteA
    (switchWallet B remoteB s) (snapshotOf s) hget hcond]
  refine ⟨rfl, rfl, rfl, ?_, rfl, ?_⟩
  · exact jsOrNum_zero s.budget
  · exact jsSpread_self_keys (switchWallet B remoteB s).settings s.settings hkeys hnd

def exApp9 : App :=
  { exApp with settings := [("language", "fr"), ("currency", "E"), ("autoBackup", "off")] }

theorem claim_C9_witness :
    (some "w1" ≠ exApp9.syncState.activeWalletId) ∧
    (exApp9.syncState.activeWalletId = none ∨ exApp9.syncState.isOnline = false) ∧
    (exApp9.settings.map Prod.fst).Nodup ∧
    ((switchWallet (some "w1") none exApp9).settings.map Prod.fst
      = exApp9.settings.map Prod.fst) ∧
    ((switchWallet exApp9.syncState.activeWalletId none
        (switchWallet (some "w1") none exApp9)).transactions = exApp9.transactions ∧
     (switchWallet exApp9.syncState.activeWalletId none
        (switchWallet (some "w1") none exApp9)).accounts = exApp9.accounts ∧
     (switchWallet exApp9.syncState.activeWalletId none
        (switchWallet (some "w1") none exApp9)).categories = exApp9.categories ∧
     (switchWallet exApp9.syncState.activeWalletId none
        (switchWallet (some "w1") none exApp9)).budget = exApp9.budget ∧
     (switchWallet exApp9.syncState.activeWalletId none
        (switchWallet (some "w1") none exApp9)).categoryBudgets = exApp9.categoryBudgets ∧
     (switchWallet exApp9.syncState.activeWalletId none
        (switchWallet (some "w1") none exApp9)).settings = exApp9.settings) :=
  ⟨by decide, Or.inl (by decide), by decide, by decide,
    claim_C9_round_trip exApp9 (some "w1") none none (by decide)
      (Or.inl (by decide)) (by decide) (by decide)⟩

end BudgetTracker
